import Mathlib

/-!
Verification of the TypeScript teaching repository: a shallow embedding of
the Express error-handling example (`excepciones/ejemplo`), the
`TaskMgr`/`TaskManager` Clean Code exercise, the `ApiResponseBuilder`, and
the cohesion-and-coupling order-processing snippets, together with
theorems settling the behavioural claims about them.
-/

set_option autoImplicit false

/-! ### Exceptions (`base-exception.ts`, `not-found.exception.ts`, `bad-request.exception.ts`)

A JavaScript error value reaching the error handler is either an instance
of `BaseException` (carrying `status`, `code`, `message` and the optional
`details` payload of TypeScript type `unknown`, modelled by the type
parameter `α`) or any other `Error`, which carries only a `message`. -/

inductive JsError (α : Type) where
  | baseException (status : Nat) (code : String) (message : String) (details : Option α)
  | plainError (message : String)
deriving DecidableEq

/-- `new NotFoundException(message, details)`: `super(404, 'NOT_FOUND', message, details)`. -/
def NotFoundException {α : Type} (message : String) (details : Option α) : JsError α :=
  JsError.baseException 404 "NOT_FOUND" message details

/-- `new BadRequestException(message, details)`: `super(400, 'BAD_REQUEST', message, details)`. -/
def BadRequestException {α : Type} (message : String) (details : Option α) : JsError α :=
  JsError.baseException 400 "BAD_REQUEST" message details

/-- JavaScript `s || fallback` on strings: the empty string is falsy. -/
def jsOrString (s fallback : String) : String :=
  if s = "" then fallback else s

/-- The JSON body assembled by the `errorHandler` middleware. -/
structure ErrorResponse (α : Type) where
  traceId : String
  status : Nat
  code : String
  message : String
  details : Option α
deriving DecidableEq

/-- The error's own `message` field. -/
def JsError.message {α : Type} : JsError α → String
  | .baseException _ _ m _ => m
  | .plainError m => m

/-- The global `errorHandler` middleware: branches on
`error instanceof BaseException` for `status`, `code` and `details`, and
takes `error.message || 'Error interno del servidor'` as the message. -/
def errorHandler {α : Type} (reqTraceId : String) (error : JsError α) : ErrorResponse α :=
  { traceId := reqTraceId
    status := match error with
      | .baseException s _ _ _ => s
      | .plainError _ => 500
    code := match error with
      | .baseException _ c _ _ => c
      | .plainError _ => "INTERNAL_SERVER_ERROR"
    message := jsOrString error.message "Error interno del servidor"
    details := match error with
      | .baseException _ _ _ d => d
      | .plainError _ => none }

/-! ### Trace middleware (`trace.middleware.ts`)

`req.traceId = req.headers['x-trace-id'] as string || uuidv4()` followed by
`res.setHeader('x-trace-id', req.traceId)`.  The header is an
`Option String` (absent or present); the `uuidv4()` draw is the
`freshUuid` argument. -/

structure TraceResult where
  reqTraceId : String
  resHeader : String
deriving DecidableEq

def traceMiddleware (headerTraceId : Option String) (freshUuid : String) : TraceResult :=
  let tid : String := match headerTraceId with
    | some h => jsOrString h freshUuid
    | none => freshUuid
  ⟨tid, tid⟩

/-! ### `ApiResponseBuilder` (`api-response.ts`)

`T` is the payload type, `α` the type of the `unknown` details payload. -/

structure ApiResponse (T α : Type) where
  traceId : String
  status : Nat
  code : String
  message : String
  data : Option T
  details : Option α
deriving DecidableEq

structure ApiResponseBuilder (T α : Type) where
  response : ApiResponse T α
deriving DecidableEq

/-- `new ApiResponseBuilder(traceId)`: status 200, code `'SUCCESS'`, empty
message, `data` and `details` left unset. -/
def apiResponseBuilderNew (T α : Type) (tid : String) : ApiResponseBuilder T α :=
  ⟨{ traceId := tid, status := 200, code := "SUCCESS", message := "", data := none,
     details := none }⟩

def ApiResponseBuilder.setStatus {T α : Type} (b : ApiResponseBuilder T α) (status : Nat) :
    ApiResponseBuilder T α :=
  ⟨{ b.response with status := status }⟩

def ApiResponseBuilder.setCode {T α : Type} (b : ApiResponseBuilder T α) (code : String) :
    ApiResponseBuilder T α :=
  ⟨{ b.response with code := code }⟩

def ApiResponseBuilder.setMessage {T α : Type} (b : ApiResponseBuilder T α) (message : String) :
    ApiResponseBuilder T α :=
  ⟨{ b.response with message := message }⟩

def ApiResponseBuilder.setData {T α : Type} (b : ApiResponseBuilder T α) (data : T) :
    ApiResponseBuilder T α :=
  ⟨{ b.response with data := some data }⟩

def ApiResponseBuilder.setDetails {T α : Type} (b : ApiResponseBuilder T α) (details : α) :
    ApiResponseBuilder T α :=
  ⟨{ b.response with details := some details }⟩

def ApiResponseBuilder.build {T α : Type} (b : ApiResponseBuilder T α) : ApiResponse T α :=
  b.response

/-- One chained setter call on an `ApiResponseBuilder`. -/
inductive BuilderOp (T α : Type) where
  | setStatus (status : Nat)
  | setCode (code : String)
  | setMessage (message : String)
  | setData (data : T)
  | setDetails (details : α)
deriving DecidableEq

def applyBuilderOp {T α : Type} (b : ApiResponseBuilder T α) : BuilderOp T α → ApiResponseBuilder T α
  | .setStatus s => b.setStatus s
  | .setCode c => b.setCode c
  | .setMessage m => b.setMessage m
  | .setData d => b.setData d
  | .setDetails d => b.setDetails d

def applyBuilderOps {T α : Type} (b : ApiResponseBuilder T α) (ops : List (BuilderOp T α)) :
    ApiResponseBuilder T α :=
  ops.foldl applyBuilderOp b

def BuilderOp.isSetStatus {T α : Type} : BuilderOp T α → Bool
  | .setStatus _ => true
  | _ => false

def BuilderOp.isSetCode {T α : Type} : BuilderOp T α → Bool
  | .setCode _ => true
  | _ => false

def BuilderOp.isSetMessage {T α : Type} : BuilderOp T α → Bool
  | .setMessage _ => true
  | _ => false

def BuilderOp.isSetData {T α : Type} : BuilderOp T α → Bool
  | .setData _ => true
  | _ => false

def BuilderOp.isSetDetails {T α : Type} : BuilderOp T α → Bool
  | .setDetails _ => true
  | _ => false

/-! ### Theorems for claims C1, C5 -/

/-- Claim C1: the `errorHandler` response copies `status`, `code` and
`details` from the exception when the error is a `BaseException`
(`NotFoundException` giving 404 / `NOT_FOUND`, `BadRequestException`
giving 400 / `BAD_REQUEST`, each with its own details), and uses 500 /
`INTERNAL_SERVER_ERROR` with no details for every other `Error`; in both
cases the message is the error's message, with the fallback
`Error interno del servidor` exactly when that message is empty. -/
theorem errorHandler_spec (α : Type) (tid : String) :
    (∀ (s : Nat) (c m : String) (d : Option α),
      errorHandler tid (JsError.baseException s c m d)
        = ⟨tid, s, c, if m = "" then "Error interno del servidor" else m, d⟩)
    ∧ (∀ m : String,
      errorHandler tid (@JsError.plainError α m)
        = ⟨tid, 500, "INTERNAL_SERVER_ERROR",
            if m = "" then "Error interno del servidor" else m, none⟩)
    ∧ (∀ (m : String) (d : Option α),
      errorHandler tid (NotFoundException m d)
        = ⟨tid, 404, "NOT_FOUND", if m = "" then "Error interno del servidor" else m, d⟩)
    ∧ (∀ (m : String) (d : Option α),
      errorHandler tid (BadRequestException m d)
        = ⟨tid, 400, "BAD_REQUEST", if m = "" then "Error interno del servidor" else m, d⟩) := by
  refine ⟨fun s c m d => ?_, fun m => ?_, fun m d => ?_, fun m d => ?_⟩ <;>
    simp [errorHandler, JsError.message, jsOrString, NotFoundException, BadRequestException]

/-- Claim C5: after the trace middleware runs, `req.traceId` is the
`x-trace-id` request header when present and non-empty, and the fresh
UUID otherwise; the `x-trace-id` response header equals `req.traceId`. -/
theorem traceMiddleware_spec (fresh h : String) :
    (traceMiddleware none fresh).reqTraceId = fresh
    ∧ (traceMiddleware (some "") fresh).reqTraceId = fresh
    ∧ (h ≠ "" → (traceMiddleware (some h) fresh).reqTraceId = h)
    ∧ (∀ o : Option String, (traceMiddleware o fresh).resHeader = (traceMiddleware o fresh).reqTraceId) := by
  refine ⟨rfl, by simp [traceMiddleware, jsOrString], fun hne => ?_, fun o => rfl⟩
  simp [traceMiddleware, jsOrString, hne]

/-- Witness for C5 at a concrete non-empty header. -/
theorem traceMiddleware_spec_witness :
    ("trace-7" ≠ "") ∧ (traceMiddleware (some "trace-7") "uuid-1").reqTraceId = "trace-7" :=
  ⟨by decide, (traceMiddleware_spec "uuid-1" "trace-7").2.2.1 (by decide)⟩

/-! ### Builder invariants (claim C8) -/

theorem applyBuilderOp_traceId {T α : Type} (b : ApiResponseBuilder T α) (op : BuilderOp T α) :
    (applyBuilderOp b op).response.traceId = b.response.traceId := by
  cases op <;> rfl

theorem applyBuilderOps_traceId {T α : Type} (ops : List (BuilderOp T α)) :
    ∀ b : ApiResponseBuilder T α,
      (applyBuilderOps b ops).response.traceId = b.response.traceId := by
  induction ops with
  | nil => intro b; rfl
  | cons op ops ih =>
      intro b
      simpa [applyBuilderOps, applyBuilderOp_traceId] using
        (applyBuilderOp_traceId b op ▸ ih (applyBuilderOp b op))

theorem applyBuilderOps_status {T α : Type} (ops : List (BuilderOp T α)) :
    ∀ b : ApiResponseBuilder T α, (∀ op ∈ ops, op.isSetStatus = false) →
      (applyBuilderOps b ops).response.status = b.response.status := by
  induction ops with
  | nil => intro b _; rfl
  | cons op ops ih =>
      intro b h
      have hop : op.isSetStatus = false := h op (List.mem_cons_self op ops)
      have hstep : (applyBuilderOp b op).response.status = b.response.status := by
        cases op <;> simp_all [applyBuilderOp, BuilderOp.isSetStatus, ApiResponseBuilder.setCode,
          ApiResponseBuilder.setMessage, ApiResponseBuilder.setData, ApiResponseBuilder.setDetails]
      have := ih (applyBuilderOp b op) (fun o ho => h o (List.mem_cons_of_mem op ho))
      simpa [applyBuilderOps, hstep] using this

theorem applyBuilderOps_code {T α : Type} (ops : List (BuilderOp T α)) :
    ∀ b : ApiResponseBuilder T α, (∀ op ∈ ops, op.isSetCode = false) →
      (applyBuilderOps b ops).response.code = b.response.code := by
  induction ops with
  | nil => intro b _; rfl
  | cons op ops ih =>
      intro b h
      have hop : op.isSetCode = false := h op (List.mem_cons_self op ops)
      have hstep : (applyBuilderOp b op).response.code = b.response.code := by
        cases op <;> simp_all [applyBuilderOp, BuilderOp.isSetCode, ApiResponseBuilder.setStatus,
          ApiResponseBuilder.setMessage, ApiResponseBuilder.setData, ApiResponseBuilder.setDetails]
      have := ih (applyBuilderOp b op) (fun o ho => h o (List.mem_cons_of_mem op ho))
      simpa [applyBuilderOps, hstep] using this

theorem applyBuilderOps_message {T α : Type} (ops : List (BuilderOp T α)) :
    ∀ b : ApiResponseBuilder T α, (∀ op ∈ ops, op.isSetMessage = false) →
      (applyBuilderOps b ops).response.message = b.response.message := by
  induction ops with
  | nil => intro b _; rfl
  | cons op ops ih =>
      intro b h
      have hop : op.isSetMessage = false := h op (List.mem_cons_self op ops)
      have hstep : (applyBuilderOp b op).response.message = b.response.message := by
        cases op <;> simp_all [applyBuilderOp, BuilderOp.isSetMessage, ApiResponseBuilder.setStatus,
          ApiResponseBuilder.setCode, ApiResponseBuilder.setData, ApiResponseBuilder.setDetails]
      have := ih (applyBuilderOp b op) (fun o ho => h o (List.mem_cons_of_mem op ho))
      simpa [applyBuilderOps, hstep] using this

theorem applyBuilderOps_data {T α : Type} (ops : List (BuilderOp T α)) :
    ∀ b : ApiResponseBuilder T α, (∀ op ∈ ops, op.isSetData = false) →
      (applyBuilderOps b ops).response.data = b.response.data := by
  induction ops with
  | nil => intro b _; rfl
  | cons op ops ih =>
      intro b h
      have hop : op.isSetData = false := h op (List.mem_cons_self op ops)
      have hstep : (applyBuilderOp b op).response.data = b.response.data := by
        cases op <;> simp_all [applyBuilderOp, BuilderOp.isSetData, ApiResponseBuilder.setStatus,
          ApiResponseBuilder.setCode, ApiResponseBuilder.setMessage, ApiResponseBuilder.setDetails]
      have := ih (applyBuilderOp b op) (fun o ho => h o (List.mem_cons_of_mem op ho))
      simpa [applyBuilderOps, hstep] using this

theorem applyBuilderOps_details {T α : Type} (ops : List (BuilderOp T α)) :
    ∀ b : ApiResponseBuilder T α, (∀ op ∈ ops, op.isSetDetails = false) →
      (applyBuilderOps b ops).response.details = b.response.details := by
  induction ops with
  | nil => intro b _; rfl
  | cons op ops ih =>
      intro b h
      have hop : op.isSetDetails = false := h op (List.mem_cons_self op ops)
      have hstep : (applyBuilderOp b op).response.details = b.response.details := by
        cases op <;> simp_all [applyBuilderOp, BuilderOp.isSetDetails, ApiResponseBuilder.setStatus,
          ApiResponseBuilder.setCode, ApiResponseBuilder.setMessage, ApiResponseBuilder.setData]
      have := ih (applyBuilderOp b op) (fun o ho => h o (List.mem_cons_of_mem op ho))
      simpa [applyBuilderOps, hstep] using this

/-- Claim C8: every `ApiResponse` built after any chain of setter calls
keeps the `traceId` passed to the constructor, and every field whose
setter never appears in the chain keeps its initial value: status 200,
code `SUCCESS`, empty message, and absent `data` and `details`. -/
theorem apiResponseBuilder_build_spec (T α : Type) (tid : String)
    (ops : List (BuilderOp T α)) :
    ((applyBuilderOps (apiResponseBuilderNew T α tid) ops).build).traceId = tid
    ∧ ((∀ op ∈ ops, op.isSetStatus = false) →
        ((applyBuilderOps (apiResponseBuilderNew T α tid) ops).build).status = 200)
    ∧ ((∀ op ∈ ops, op.isSetCode = false) →
        ((applyBuilderOps (apiResponseBuilderNew T α tid) ops).build).code = "SUCCESS")
    ∧ ((∀ op ∈ ops, op.isSetMessage = false) →
        ((applyBuilderOps (apiResponseBuilderNew T α tid) ops).build).message = "")
    ∧ ((∀ op ∈ ops, op.isSetData = false) →
        ((applyBuilderOps (apiResponseBuilderNew T α tid) ops).build).data = none)
    ∧ ((∀ op ∈ ops, op.isSetDetails = false) →
        ((applyBuilderOps (apiResponseBuilderNew T α tid) ops).build).details = none) := by
  refine ⟨applyBuilderOps_traceId ops _, fun h => ?_, fun h => ?_, fun h => ?_,
    fun h => ?_, fun h => ?_⟩
  · exact applyBuilderOps_status ops _ h
  · exact applyBuilderOps_code ops _ h
  · exact applyBuilderOps_message ops _ h
  · exact applyBuilderOps_data ops _ h
  · exact applyBuilderOps_details ops _ h

/-- Witness for C8: a concrete chain that sets only the data field keeps
trace id, default status, code, message and details. -/
theorem apiResponseBuilder_build_spec_witness :
    (∀ op ∈ [@BuilderOp.setData Nat Nat 3], op.isSetStatus = false)
    ∧ ((applyBuilderOps (apiResponseBuilderNew Nat Nat "t-1")
        [BuilderOp.setData 3]).build).status = 200 :=
  ⟨by decide, (apiResponseBuilder_build_spec Nat Nat "t-1" [BuilderOp.setData 3]).2.1 (by decide)⟩

namespace CleanCode

/-! ### Clean Code task exercise (`taskBase.ts` and its refactored version)

The bad-practices `TaskMgr` stores records `{...t, id, st, ct}` built from
the input task `t` (fields `title` and `p`), a `Math.random()`-based id
and a `new Date()` timestamp; the refactored `TaskManager` stores `Task`
records with named fields and a `TaskStatus` enum.  The nondeterministic
id and clock draws are modelled by oracle functions `gen` and `clock`
indexed by a draw counter threaded through the run. -/

structure BadTask where
  id : String
  title : String
  p : Bool
  st : String
  ct : Nat
deriving DecidableEq

inductive TaskStatus where
  | PENDING
  | COMPLETED
deriving DecidableEq

/-- The string values of the `TaskStatus` enum members. -/
def TaskStatus.toStr : TaskStatus → String
  | .PENDING => "pending"
  | .COMPLETED => "completed"

structure Task where
  id : String
  title : String
  isPriority : Bool
  status : TaskStatus
  createdAt : Nat
deriving DecidableEq

structure TaskMgr where
  d : List BadTask
deriving DecidableEq

structure TaskManager where
  tasks : List Task
deriving DecidableEq

/-- `TaskMgr.add`: returns `false` without touching the list when the
title is falsy; otherwise unshifts (priority) or pushes the new record. -/
def TaskMgr.add (gen : Nat → String) (clock : Nat → Nat) (s : TaskMgr) (n : Nat)
    (title : String) (p : Bool) : Bool × TaskMgr × Nat :=
  if title = "" then (false, s, n)
  else
    let newTask : BadTask := ⟨gen n, title, p, "pending", clock n⟩
    if p then (true, ⟨newTask :: s.d⟩, n + 1) else (true, ⟨s.d ++ [newTask]⟩, n + 1)

/-- `this.d.find(x => x.id === i)` followed by in-place `t.st = "completed"`:
the first task whose id matches gets its status replaced. -/
def doneList (i : String) : List BadTask → Bool × List BadTask
  | [] => (false, [])
  | t :: ts =>
    if t.id = i then (true, { t with st := "completed" } :: ts)
    else
      let r := doneList i ts
      (r.1, t :: r.2)

def TaskMgr.done (s : TaskMgr) (i : String) : Bool × TaskMgr :=
  let r := doneList i s.d
  (r.1, ⟨r.2⟩)

def TaskMgr.getAll (s : TaskMgr) : List BadTask :=
  s.d

/-- `TaskManager.addTask`: always creates the task and returns `true`
(there is no title check in the refactored class). -/
def TaskManager.addTask (gen : Nat → String) (clock : Nat → Nat) (s : TaskManager) (n : Nat)
    (title : String) (isPriority : Bool) : Bool × TaskManager × Nat :=
  let newTask : Task := ⟨gen n, title, isPriority, TaskStatus.PENDING, clock n⟩
  if isPriority then (true, ⟨newTask :: s.tasks⟩, n + 1)
  else (true, ⟨s.tasks ++ [newTask]⟩, n + 1)

/-- `this.tasks.find(task => task.id === taskId)` followed by in-place
`task.status = TaskStatus.COMPLETED`. -/
def completeTaskList (taskId : String) : List Task → Bool × List Task
  | [] => (false, [])
  | t :: ts =>
    if t.id = taskId then (true, { t with status := TaskStatus.COMPLETED } :: ts)
    else
      let r := completeTaskList taskId ts
      (r.1, t :: r.2)

def TaskManager.completeTask (s : TaskManager) (taskId : String) : Bool × TaskManager :=
  let r := completeTaskList taskId s.tasks
  (r.1, ⟨r.2⟩)

def TaskManager.getAllTasks (s : TaskManager) : List Task :=
  s.tasks

/-- An operation on either task class, named after the refactored API;
`add t p`/`addTask t p` and `done i`/`completeTask i` correspond. -/
inductive TaskOp where
  | add (title : String) (isPriority : Bool)
  | done (id : String)
deriving DecidableEq

def TaskMgr.run (gen : Nat → String) (clock : Nat → Nat) :
    TaskMgr → Nat → List TaskOp → (TaskMgr × Nat) × List Bool
  | s, n, [] => ((s, n), [])
  | s, n, TaskOp.add t p :: ops =>
      let r := TaskMgr.add gen clock s n t p
      let rest := TaskMgr.run gen clock r.2.1 r.2.2 ops
      (rest.1, r.1 :: rest.2)
  | s, n, TaskOp.done i :: ops =>
      let r := TaskMgr.done s i
      let rest := TaskMgr.run gen clock r.2 n ops
      (rest.1, r.1 :: rest.2)

def TaskManager.run (gen : Nat → String) (clock : Nat → Nat) :
    TaskManager → Nat → List TaskOp → (TaskManager × Nat) × List Bool
  | s, n, [] => ((s, n), [])
  | s, n, TaskOp.add t p :: ops =>
      let r := TaskManager.addTask gen clock s n t p
      let rest := TaskManager.run gen clock r.2.1 r.2.2 ops
      (rest.1, r.1 :: rest.2)
  | s, n, TaskOp.done i :: ops =>
      let r := TaskManager.completeTask s i
      let rest := TaskManager.run gen clock r.2 n ops
      (rest.1, r.1 :: rest.2)

/-- Renaming of a refactored task into the bad-practices record shape:
`isPriority`/`p`, `status`/`st` (through the enum's string values),
`createdAt`/`ct`. -/
def Task.toBad (t : Task) : BadTask :=
  ⟨t.id, t.title, t.isPriority, t.status.toStr, t.createdAt⟩

def TaskOp.titleOk : TaskOp → Bool
  | .add t _ => !(t == "")
  | .done _ => true

end CleanCode

namespace CleanCode

/-! ### Equivalence and frame lemmas for the task classes -/

theorem doneList_map_toBad (i : String) :
    ∀ l : List Task,
      doneList i (l.map Task.toBad)
        = ((completeTaskList i l).1, ((completeTaskList i l).2).map Task.toBad) := by
  intro l
  induction l with
  | nil => rfl
  | cons t ts ih =>
      by_cases hid : t.id = i
      · simp [doneList, completeTaskList, Task.toBad, hid, TaskStatus.toStr]
      · simp [doneList, completeTaskList, Task.toBad, hid, ih]

theorem run_map_toBad (gen : Nat → String) (clock : Nat → Nat) (ops : List TaskOp)
    (h : ∀ op ∈ ops, op.titleOk = true) :
    ∀ (gs : List Task) (n : Nat),
      (TaskMgr.run gen clock ⟨gs.map Task.toBad⟩ n ops).2
          = (TaskManager.run gen clock ⟨gs⟩ n ops).2
      ∧ (TaskMgr.run gen clock ⟨gs.map Task.toBad⟩ n ops).1.1.d
          = ((TaskManager.run gen clock ⟨gs⟩ n ops).1.1.tasks).map Task.toBad
      ∧ (TaskMgr.run gen clock ⟨gs.map Task.toBad⟩ n ops).1.2
          = (TaskManager.run gen clock ⟨gs⟩ n ops).1.2 := by
  induction ops with
  | nil => intro gs n; exact ⟨rfl, rfl, rfl⟩
  | cons op ops ih =>
      intro gs n
      have hops : ∀ o ∈ ops, o.titleOk = true := fun o ho => h o (List.mem_cons_of_mem op ho)
      cases op with
      | add t p =>
          have ht : t ≠ "" := by
            have := h (TaskOp.add t p) (List.mem_cons_self _ _)
            simpa [TaskOp.titleOk] using this
          cases p with
          | true =>
              have := ih hops (⟨gen n, t, true, TaskStatus.PENDING, clock n⟩ :: gs) (n + 1)
              simpa [TaskMgr.run, TaskManager.run, TaskMgr.add, TaskManager.addTask, ht,
                Task.toBad, TaskStatus.toStr] using this
          | false =>
              have := ih hops (gs ++ [⟨gen n, t, false, TaskStatus.PENDING, clock n⟩]) (n + 1)
              simpa [TaskMgr.run, TaskManager.run, TaskMgr.add, TaskManager.addTask, ht,
                Task.toBad, TaskStatus.toStr] using this
      | done i =>
          have hdone := doneList_map_toBad i gs
          have := ih hops (completeTaskList i gs).2 n
          simp [TaskMgr.run, TaskManager.run, TaskMgr.done, TaskManager.completeTask, hdone]
          exact this

/-- Claim C6 (amended): starting from empty task lists and the same id and
clock oracles, any sequence of operations whose added titles are all
non-empty drives `TaskMgr` and `TaskManager` to states equal up to field
renaming (`p`/`isPriority`, `st`/`status`, `ct`/`createdAt`) — same
titles, same priority placement, same statuses — and produces the same
boolean results.  (As stated originally the claim is false:
`TaskMgr.add` returns `false` on a title-less task while
`TaskManager.addTask` accepts it and returns `true`.) -/
theorem taskMgr_taskManager_equiv (gen : Nat → String) (clock : Nat → Nat)
    (ops : List TaskOp) (h : ∀ op ∈ ops, op.titleOk = true) :
    (TaskMgr.run gen clock ⟨[]⟩ 0 ops).2 = (TaskManager.run gen clock ⟨[]⟩ 0 ops).2
    ∧ (TaskMgr.run gen clock ⟨[]⟩ 0 ops).1.1.d
        = ((TaskManager.run gen clock ⟨[]⟩ 0 ops).1.1.tasks).map Task.toBad := by
  have := run_map_toBad gen clock ops h [] 0
  exact ⟨this.1, this.2.1⟩

/-- Witness for the amended C6 on the operation sequence from the files'
own test code (two adds, then completing the first listed task). -/
theorem taskMgr_taskManager_equiv_witness :
    (∀ op ∈ [TaskOp.add "Tarea 1" true, TaskOp.add "Tarea 2" false, TaskOp.done "id-0"],
        op.titleOk = true)
    ∧ (TaskMgr.run (fun k => "id-" ++ Nat.repr k) (fun k => k) ⟨[]⟩ 0
          [TaskOp.add "Tarea 1" true, TaskOp.add "Tarea 2" false, TaskOp.done "id-0"]).2
        = (TaskManager.run (fun k => "id-" ++ Nat.repr k) (fun k => k) ⟨[]⟩ 0
          [TaskOp.add "Tarea 1" true, TaskOp.add "Tarea 2" false, TaskOp.done "id-0"]).2 :=
  ⟨by decide,
    (taskMgr_taskManager_equiv (fun k => "id-" ++ Nat.repr k) (fun k => k)
      [TaskOp.add "Tarea 1" true, TaskOp.add "Tarea 2" false, TaskOp.done "id-0"]
      (by decide)).1⟩

/-- Counterexample to C6 as stated: on the single-operation sequence that
adds a task with an empty title, `TaskMgr.add` returns `false` and stores
nothing while `TaskManager.addTask` returns `true` and stores the task,
so the two classes are not behaviourally equivalent on all sequences. -/
theorem taskMgr_taskManager_not_equiv :
    (TaskMgr.run (fun _ => "id-0") (fun _ => 0) ⟨[]⟩ 0 [TaskOp.add "" false]).2 = [false]
    ∧ (TaskManager.run (fun _ => "id-0") (fun _ => 0) ⟨[]⟩ 0 [TaskOp.add "" false]).2 = [true]
    ∧ (TaskMgr.run (fun _ => "id-0") (fun _ => 0) ⟨[]⟩ 0 [TaskOp.add "" false]).1.1.d = []
    ∧ (TaskManager.run (fun _ => "id-0") (fun _ => 0) ⟨[]⟩ 0 [TaskOp.add "" false]).1.1.tasks
        = [⟨"id-0", "", false, TaskStatus.PENDING, 0⟩] :=
  ⟨rfl, rfl, rfl, rfl⟩

theorem completeTaskList_pos (i : String) :
    ∀ (l₁ : List Task) (t : Task) (l₂ : List Task), t.id = i → (∀ u ∈ l₁, u.id ≠ i) →
      completeTaskList i (l₁ ++ t :: l₂)
        = (true, l₁ ++ { t with status := TaskStatus.COMPLETED } :: l₂) := by
  intro l₁
  induction l₁ with
  | nil => intro t l₂ ht _; simp [completeTaskList, ht]
  | cons u l₁ ih =>
      intro t l₂ ht hl
      have hu : u.id ≠ i := hl u (List.mem_cons_self _ _)
      have := ih t l₂ ht (fun v hv => hl v (List.mem_cons_of_mem u hv))
      simp [completeTaskList, hu, this]

theorem completeTaskList_neg (i : String) :
    ∀ l : List Task, (∀ u ∈ l, u.id ≠ i) → completeTaskList i l = (false, l) := by
  intro l
  induction l with
  | nil => intro _; rfl
  | cons u l ih =>
      intro hl
      have hu : u.id ≠ i := hl u (List.mem_cons_self _ _)
      have := ih (fun v hv => hl v (List.mem_cons_of_mem u hv))
      simp [completeTaskList, hu, this]

theorem doneList_pos (i : String) :
    ∀ (l₁ : List BadTask) (t : BadTask) (l₂ : List BadTask), t.id = i →
      (∀ u ∈ l₁, u.id ≠ i) →
      doneList i (l₁ ++ t :: l₂) = (true, l₁ ++ { t with st := "completed" } :: l₂) := by
  intro l₁
  induction l₁ with
  | nil => intro t l₂ ht _; simp [doneList, ht]
  | cons u l₁ ih =>
      intro t l₂ ht hl
      have hu : u.id ≠ i := hl u (List.mem_cons_self _ _)
      have := ih t l₂ ht (fun v hv => hl v (List.mem_cons_of_mem u hv))
      simp [doneList, hu, this]

theorem doneList_neg (i : String) :
    ∀ l : List BadTask, (∀ u ∈ l, u.id ≠ i) → doneList i l = (false, l) := by
  intro l
  induction l with
  | nil => intro _; rfl
  | cons u l ih =>
      intro hl
      have hu : u.id ≠ i := hl u (List.mem_cons_self _ _)
      have := ih (fun v hv => hl v (List.mem_cons_of_mem u hv))
      simp [doneList, hu, this]

/-- Claim C7: `TaskManager.completeTask` (and likewise `TaskMgr.done`)
marks exactly the first task whose id matches as completed and returns
`true`, leaving that task's other fields, all other tasks and the list
order unchanged; when no task matches it returns `false` and leaves the
whole list unchanged. -/
theorem completeTask_done_frame :
    (∀ (l₁ l₂ : List Task) (t : Task) (i : String), t.id = i → (∀ u ∈ l₁, u.id ≠ i) →
      TaskManager.completeTask ⟨l₁ ++ t :: l₂⟩ i
        = (true, ⟨l₁ ++ { t with status := TaskStatus.COMPLETED } :: l₂⟩))
    ∧ (∀ (l : List Task) (i : String), (∀ u ∈ l, u.id ≠ i) →
      TaskManager.completeTask ⟨l⟩ i = (false, ⟨l⟩))
    ∧ (∀ (l₁ l₂ : List BadTask) (t : BadTask) (i : String), t.id = i →
      (∀ u ∈ l₁, u.id ≠ i) →
      TaskMgr.done ⟨l₁ ++ t :: l₂⟩ i = (true, ⟨l₁ ++ { t with st := "completed" } :: l₂⟩))
    ∧ (∀ (l : List BadTask) (i : String), (∀ u ∈ l, u.id ≠ i) →
      TaskMgr.done ⟨l⟩ i = (false, ⟨l⟩)) := by
  refine ⟨fun l₁ l₂ t i ht hl => ?_, fun l i hl => ?_, fun l₁ l₂ t i ht hl => ?_,
    fun l i hl => ?_⟩
  · simp [TaskManager.completeTask, completeTaskList_pos i l₁ t l₂ ht hl]
  · simp [TaskManager.completeTask, completeTaskList_neg i l hl]
  · simp [TaskMgr.done, doneList_pos i l₁ t l₂ ht hl]
  · simp [TaskMgr.done, doneList_neg i l hl]

/-- Witness for C7: completing the second of two concrete tasks flips only
its status. -/
theorem completeTask_done_frame_witness :
    ((⟨"b", "Tarea 2", true, TaskStatus.PENDING, 1⟩ : Task).id = "b"
      ∧ (∀ u ∈ [(⟨"a", "Tarea 1", false, TaskStatus.PENDING, 0⟩ : Task)], u.id ≠ "b"))
    ∧ TaskManager.completeTask
        ⟨[⟨"a", "Tarea 1", false, TaskStatus.PENDING, 0⟩,
          ⟨"b", "Tarea 2", true, TaskStatus.PENDING, 1⟩]⟩ "b"
      = (true, ⟨[⟨"a", "Tarea 1", false, TaskStatus.PENDING, 0⟩,
          ⟨"b", "Tarea 2", true, TaskStatus.COMPLETED, 1⟩]⟩) :=
  ⟨⟨by decide, by decide⟩,
    completeTask_done_frame.1 [⟨"a", "Tarea 1", false, TaskStatus.PENDING, 0⟩] []
      ⟨"b", "Tarea 2", true, TaskStatus.PENDING, 1⟩ "b" (by decide) (by decide)⟩

end CleanCode

namespace UsersApi

/-! ### Users CRUD router (`users.routes.ts`)

The in-memory database `const users: Map<string, User> = new Map()` is
modelled as an insertion-ordered association list without duplicate keys,
with `get`/`has`/`set`/`delete`/`values` following JavaScript `Map`
semantics (`set` overwrites in place, otherwise appends).  The `uuidv4()`
and `new Date()` draws of the POST handler are explicit arguments.
Throwing an exception (always caught by `next(error)` and routed to the
error handler) is modelled by `Except.error`; each success result carries
the map as left by the handler, errors leave it as it was (all mutations
in the source happen after the last `throw`). -/

structure User where
  id : String
  name : String
  email : String
  createdAt : Nat
deriving DecidableEq

/-- The destructured request body `const { email, name } = req.body`;
absent fields are `none`. -/
structure Body where
  email : Option String
  name : Option String
deriving DecidableEq

abbrev UsersMap := List (String × User)

def mapHas (m : UsersMap) (k : String) : Bool :=
  m.any (fun p => p.1 == k)

def mapGet (m : UsersMap) (k : String) : Option User :=
  (m.find? (fun p => p.1 == k)).map (fun p => p.2)

def mapSet (m : UsersMap) (k : String) (v : User) : UsersMap :=
  if mapHas m k then m.map (fun p => if p.1 == k then (k, v) else p) else m ++ [(k, v)]

def mapDelete (m : UsersMap) (k : String) : UsersMap :=
  m.filter (fun p => !(p.1 == k))

def mapValues (m : UsersMap) : List User :=
  m.map (fun p => p.2)

/-- JavaScript truthiness of an optional string field: `undefined` and
the empty string are falsy. -/
def truthy : Option String → Bool
  | some s => !(s == "")
  | none => false

/-- The string value of a field already known to be truthy. -/
def optStr (o : Option String) : String :=
  o.getD ""

/-- JavaScript `o || fallback` where `o` is an optional string. -/
def jsOrOpt (o : Option String) (fallback : String) : String :=
  match o with
  | some s => if s == "" then fallback else s
  | none => fallback

/-- The character class `\s` of the email regex: JavaScript whitespace,
i.e. the ASCII whitespace characters together with NO-BREAK SPACE
U+00A0, OGHAM SPACE MARK U+1680, the U+2000 to U+200A spaces, LINE
SEPARATOR U+2028, PARAGRAPH SEPARATOR U+2029, NARROW NO-BREAK SPACE
U+202F, MEDIUM MATHEMATICAL SPACE U+205F, IDEOGRAPHIC SPACE U+3000 and
ZERO WIDTH NO-BREAK SPACE U+FEFF. -/
def isJsWhitespace (c : Char) : Bool :=
  c == ' ' || c == '\t' || c == '\n' || c == '\r' || c == '\x0b' || c == '\x0c'
  || c == '\u00A0' || c == '\u1680'
  || (0x2000 ≤ c.toNat && c.toNat ≤ 0x200A)
  || c == '\u2028' || c == '\u2029' || c == '\u202F' || c == '\u205F'
  || c == '\u3000' || c == '\uFEFF'

/-- Splitting a character list at every occurrence of `c`: the
character-level counterpart of `String.splitOn` for a one-character
separator. -/
def splitOnChar (c : Char) : List Char → List (List Char)
  | [] => [[]]
  | x :: xs =>
      let r := splitOnChar c xs
      if x = c then [] :: r
      else
        match r with
        | [] => [[x]]
        | y :: ys => (x :: y) :: ys

/-- One or more characters, none of them whitespace or `@`: the atom
`[^\s@]+` of the email regex. -/
def atomOk (l : List Char) : Bool :=
  !(l.isEmpty) && l.all (fun c => !(isJsWhitespace c) && !(c == '@'))

/-- The part after the `@` must match `[^\s@]+\.[^\s@]+`: no whitespace
(`@` is excluded by the split), and a dot that is neither its first nor
its last character, so that both halves around it are non-empty. -/
def domainOk (r : List Char) : Bool :=
  r.all (fun c => !(isJsWhitespace c)) && ((r.drop 1).dropLast.contains '.')

/-- `emailRegex.test(email)` with
`emailRegex = /^[^\s@]+@[^\s@]+\.[^\s@]+$/`: the anchored pattern forces
exactly one `@`, a non-empty local part without whitespace, and a domain
part that splits at some dot into two non-empty `@`-free,
whitespace-free halves. -/
def emailRegexTest (s : String) : Bool :=
  match splitOnChar '@' s.toList with
  | [a, r] => atomOk a && domainOk r
  | _ => false

/-- `req.body[field]` for the two field names used by the POST handler. -/
def bodyGet (b : Body) (field : String) : Option String :=
  if field == "email" then b.email else if field == "name" then b.name else none

/-- `['email', 'name'].filter(field => !req.body[field])`. -/
def missingFields (b : Body) : List String :=
  ["email", "name"].filter (fun f => !(truthy (bodyGet b f)))

/-- GET `/users/:id`. -/
def getUserHandler (m : UsersMap) (tid userId : String) :
    Except (JsError (List String)) (UsersMap × ApiResponse User (List String)) :=
  match mapGet m userId with
  | none => Except.error (NotFoundException ("Usuario " ++ userId ++ " no encontrado") none)
  | some user =>
      Except.ok (m,
        (((((apiResponseBuilderNew User (List String) tid).setStatus 200).setCode
          "USER_FOUND").setMessage "Usuario encontrado exitosamente").setData user).build)

/-- POST `/users`: validates presence, email format and email uniqueness,
then stores a new user under the freshly generated id. -/
def postUserHandler (m : UsersMap) (tid : String) (body : Body) (freshId : String) (now : Nat) :
    Except (JsError (List String)) (UsersMap × ApiResponse User (List String)) :=
  if !(truthy body.email) || !(truthy body.name) then
    Except.error (BadRequestException "Email y nombre son requeridos" (some (missingFields body)))
  else if !(emailRegexTest (optStr body.email)) then
    Except.error (BadRequestException "Formato de email inválido" none)
  else if (mapValues m).any (fun user => user.email == optStr body.email) then
    Except.error (BadRequestException "El email ya está registrado" none)
  else
    let newUser : User := ⟨freshId, optStr body.name, optStr body.email, now⟩
    Except.ok (mapSet m newUser.id newUser,
      (((((apiResponseBuilderNew User (List String) tid).setStatus 201).setCode
        "USER_CREATED").setMessage "Usuario creado exitosamente").setData newUser).build)

/-- PUT `/users/:id`: requires the user to exist and at least one field;
validates a supplied email's format and its uniqueness among the other
users, then overwrites the entry with the spread-updated user. -/
def putUserHandler (m : UsersMap) (tid userId : String) (body : Body) :
    Except (JsError (List String)) (UsersMap × ApiResponse User (List String)) :=
  match mapGet m userId with
  | none => Except.error (NotFoundException ("Usuario " ++ userId ++ " no encontrado") none)
  | some existingUser =>
      if !(truthy body.email) && !(truthy body.name) then
        Except.error (BadRequestException "Se requiere al menos un campo para actualizar" none)
      else if truthy body.email && !(emailRegexTest (optStr body.email)) then
        Except.error (BadRequestException "Formato de email inválido" none)
      else if truthy body.email && (mapValues m).any
          (fun user => user.email == optStr body.email && !(user.id == userId)) then
        Except.error (BadRequestException "El email ya está registrado" none)
      else
        let updatedUser : User := { existingUser with
          name := jsOrOpt body.name existingUser.name
          email := jsOrOpt body.email existingUser.email }
        Except.ok (mapSet m userId updatedUser,
          (((((apiResponseBuilderNew User (List String) tid).setStatus 200).setCode
            "USER_UPDATED").setMessage "Usuario actualizado exitosamente").setData
            updatedUser).build)

/-- DELETE `/users/:id`. -/
def deleteUserHandler (m : UsersMap) (tid userId : String) :
    Except (JsError (List String)) (UsersMap × ApiResponse Unit (List String)) :=
  if !(mapHas m userId) then
    Except.error (NotFoundException ("Usuario " ++ userId ++ " no encontrado") none)
  else
    Except.ok (mapDelete m userId,
      ((((apiResponseBuilderNew Unit (List String) tid).setStatus 200).setCode
        "USER_DELETED").setMessage "Usuario eliminado exitosamente").build)

/-- The users map after a GET request (never modified). -/
def mapAfterGet (m : UsersMap) (tid userId : String) : UsersMap :=
  match getUserHandler m tid userId with
  | Except.ok r => r.1
  | Except.error _ => m

def mapAfterPost (m : UsersMap) (tid : String) (body : Body) (freshId : String) (now : Nat) :
    UsersMap :=
  match postUserHandler m tid body freshId now with
  | Except.ok r => r.1
  | Except.error _ => m

def mapAfterPut (m : UsersMap) (tid userId : String) (body : Body) : UsersMap :=
  match putUserHandler m tid userId body with
  | Except.ok r => r.1
  | Except.error _ => m

def mapAfterDelete (m : UsersMap) (tid userId : String) : UsersMap :=
  match deleteUserHandler m tid userId with
  | Except.ok r => r.1
  | Except.error _ => m

/-- A state-changing request against the router, with the POST handler's
environment draws (`uuidv4()`, `new Date()`) as payload. -/
inductive UserOp where
  | post (body : Body) (freshId : String) (now : Nat)
  | put (userId : String) (body : Body)
  | del (userId : String)
deriving DecidableEq

def applyUserOp (m : UsersMap) : UserOp → UsersMap
  | .post body freshId now => mapAfterPost m "" body freshId now
  | .put userId body => mapAfterPut m "" userId body
  | .del userId => mapAfterDelete m "" userId

def runUserOps (ops : List UserOp) : UsersMap :=
  ops.foldl applyUserOp []

/-- The router's data invariant: distinct keys, each entry keyed by its
user's own `id`, and pairwise distinct emails. -/
def UsersInv (m : UsersMap) : Prop :=
  m.Pairwise (fun p q => p.1 ≠ q.1)
  ∧ (∀ p ∈ m, p.1 = p.2.id)
  ∧ m.Pairwise (fun p q => p.2.email ≠ q.2.email)

end UsersApi

namespace UsersApi

/-! ### Association-list map lemmas -/

theorem mapGet_eq_none_iff (m : UsersMap) (k : String) :
    mapGet m k = none ↔ mapHas m k = false := by
  simp [mapGet, mapHas, List.find?_eq_none, List.any_eq_true]

theorem mapHas_true_of_get_some {m : UsersMap} {k : String} {u : User}
    (h : mapGet m k = some u) : mapHas m k = true := by
  by_contra hfalse
  have : mapHas m k = false := by
    cases hh : mapHas m k
    · rfl
    · exact absurd hh hfalse
  rw [← mapGet_eq_none_iff] at this
  rw [h] at this
  exact Option.noConfusion this

theorem mem_of_mapGet_some {m : UsersMap} {k : String} {u : User}
    (h : mapGet m k = some u) : (k, u) ∈ m := by
  unfold mapGet at h
  cases hf : m.find? (fun p => p.1 == k) with
  | none => rw [hf] at h; exact Option.noConfusion h
  | some p =>
      rw [hf] at h
      have hp : p.1 = k := by simpa using List.find?_some hf
      have hmem : p ∈ m := List.mem_of_find?_eq_some hf
      have hu : p.2 = u := by simpa using h
      have : (k, u) = p := by
        cases p
        simp_all
      rw [this]
      exact hmem

theorem mapSet_of_not_has {m : UsersMap} {k : String} (v : User)
    (h : mapHas m k = false) : mapSet m k v = m ++ [(k, v)] := by
  simp [mapSet, h]

theorem keysNodup_mapSet {m : UsersMap} {k : String} {v : User}
    (hkeys : m.Pairwise (fun p q => p.1 ≠ q.1)) :
    (mapSet m k v).Pairwise (fun p q => p.1 ≠ q.1) := by
  unfold mapSet
  split
  · rw [List.pairwise_map]
    refine hkeys.imp ?_
    intro a b hab
    by_cases hak : a.1 == k <;> by_cases hbk : b.1 == k <;>
      simp_all
  · rw [List.pairwise_append]
    refine ⟨hkeys, List.pairwise_singleton _ _, ?_⟩
    intro a ha b hb
    have hb' : b = (k, v) := by simpa using hb
    subst hb'
    intro hak
    have : mapHas m k = true := by
      unfold mapHas
      rw [List.any_eq_true]
      exact ⟨a, ha, by simp [hak]⟩
    simp_all

theorem keysMatch_mapSet {m : UsersMap} {k : String} {v : User}
    (hmatch : ∀ p ∈ m, p.1 = p.2.id) (hv : v.id = k) :
    ∀ p ∈ mapSet m k v, p.1 = p.2.id := by
  unfold mapSet
  split
  · intro p hp
    obtain ⟨q, hq, rfl⟩ := List.mem_map.1 hp
    by_cases hqk : q.1 == k
    · simp [hqk, hv]
    · simp only [hqk]
      simp only [Bool.false_eq_true, if_false]
      exact hmatch q hq
  · intro p hp
    rcases List.mem_append.1 hp with hp | hp
    · exact hmatch p hp
    · have : p = (k, v) := by simpa using hp
      subst this
      exact hv.symm

theorem emailsDistinct_mapSet {m : UsersMap} {k : String} {v : User}
    (hkeys : m.Pairwise (fun p q => p.1 ≠ q.1))
    (hem : m.Pairwise (fun p q => p.2.email ≠ q.2.email))
    (hv : ∀ p ∈ m, p.1 ≠ k → p.2.email ≠ v.email) :
    (mapSet m k v).Pairwise (fun p q => p.2.email ≠ q.2.email) := by
  unfold mapSet
  split
  · rw [List.pairwise_map]
    refine List.Pairwise.imp_of_mem ?_ (hkeys.and hem)
    intro a b ha hb hab
    obtain ⟨hkne, hene⟩ := hab
    by_cases hak : a.1 == k <;> by_cases hbk : b.1 == k
    · exfalso
      apply hkne
      have h1 : a.1 = k := by simpa using hak
      have h2 : b.1 = k := by simpa using hbk
      rw [h1, h2]
    · have hbne : b.1 ≠ k := by simpa using hbk
      have := (hv b hb hbne).symm
      simp_all
    · have hane : a.1 ≠ k := by simpa using hak
      have := hv a ha hane
      simp_all
    · simp_all
  · rw [List.pairwise_append]
    refine ⟨hem, List.pairwise_singleton _ _, ?_⟩
    intro a ha b hb
    have hb' : b = (k, v) := by simpa using hb
    subst hb'
    have hank : a.1 ≠ k := by
      intro hak
      have : mapHas m k = true := by
        unfold mapHas
        rw [List.any_eq_true]
        exact ⟨a, ha, by simp [hak]⟩
      simp_all
    exact hv a ha hank

theorem usersInv_mapDelete {m : UsersMap} (k : String) (hinv : UsersInv m) :
    UsersInv (mapDelete m k) := by
  obtain ⟨hkeys, hmatch, hem⟩ := hinv
  have hsub : List.Sublist (mapDelete m k) m := List.filter_sublist m
  exact ⟨hkeys.sublist hsub, fun p hp => hmatch p (hsub.mem hp), hem.sublist hsub⟩

end UsersApi

namespace UsersApi

theorem jsOrOpt_of_truthy {o : Option String} (h : truthy o = true) (f : String) :
    jsOrOpt o f = optStr o := by
  cases o with
  | none => simp [truthy] at h
  | some s =>
      have hs : ¬(s == "") = true := by simpa [truthy] using h
      simp [jsOrOpt, optStr, hs]

theorem jsOrOpt_of_falsy {o : Option String} (h : truthy o = false) (f : String) :
    jsOrOpt o f = f := by
  cases o with
  | none => simp [jsOrOpt]
  | some s =>
      have hs : (s == "") = true := by
        cases hq : (s == "")
        · simp [truthy, hq] at h
        · rfl
      simp [jsOrOpt, hs]

theorem usersInv_mapAfterPost {m : UsersMap} (tid : String) (body : Body)
    (freshId : String) (now : Nat) (hinv : UsersInv m) :
    UsersInv (mapAfterPost m tid body freshId now) := by
  obtain ⟨hkeys, hmatch, hem⟩ := hinv
  unfold mapAfterPost postUserHandler
  split_ifs with h1 h2 h3
  · exact ⟨hkeys, hmatch, hem⟩
  · exact ⟨hkeys, hmatch, hem⟩
  · exact ⟨hkeys, hmatch, hem⟩
  · simp only
    refine ⟨keysNodup_mapSet hkeys, keysMatch_mapSet hmatch rfl, emailsDistinct_mapSet hkeys hem ?_⟩
    intro p hp _
    have hall : ∀ u ∈ mapValues m, ¬(u.email == optStr body.email) = true := by
      intro u hu
      intro hcontra
      exact h3 (List.any_eq_true.2 ⟨u, hu, hcontra⟩)
    have := hall p.2 (List.mem_map.2 ⟨p, hp, rfl⟩)
    simpa using this

theorem usersInv_mapAfterPut {m : UsersMap} (tid userId : String) (body : Body)
    (hinv : UsersInv m) : UsersInv (mapAfterPut m tid userId body) := by
  obtain ⟨hkeys, hmatch, hem⟩ := hinv
  unfold mapAfterPut putUserHandler
  cases hm : mapGet m userId with
  | none => exact ⟨hkeys, hmatch, hem⟩
  | some existingUser =>
      have hmem : (userId, existingUser) ∈ m := mem_of_mapGet_some hm
      have hid : existingUser.id = userId := (hmatch _ hmem).symm
      split_ifs with h1 h2 h3
      · exact ⟨hkeys, hmatch, hem⟩
      · exact ⟨hkeys, hmatch, hem⟩
      · exact ⟨hkeys, hmatch, hem⟩
      · simp only
        refine ⟨keysNodup_mapSet hkeys, keysMatch_mapSet hmatch (by simpa using hid),
          emailsDistinct_mapSet hkeys hem ?_⟩
        intro p hp hpne
        simp only
        by_cases ht : truthy body.email = true
        · rw [jsOrOpt_of_truthy ht]
          have hpid : p.2.id ≠ userId := by
            rw [← hmatch p hp]
            exact hpne
          intro hcontra
          apply h3
          rw [Bool.and_eq_true]
          refine ⟨ht, List.any_eq_true.2 ⟨p.2, List.mem_map.2 ⟨p, hp, rfl⟩, ?_⟩⟩
          simp [hcontra, hpid]
        · have ht' : truthy body.email = false := by
            cases hq : truthy body.email
            · rfl
            · exact absurd hq ht
          rw [jsOrOpt_of_falsy ht']
          have hsymm : Symmetric (fun p q : String × User => p.2.email ≠ q.2.email) :=
            fun a b hab => hab.symm
          have hpq : p ≠ (userId, existingUser) := by
            intro hcontra
            apply hpne
            rw [hcontra]
          exact hem.forall hsymm hp hmem hpq

theorem usersInv_mapAfterDelete {m : UsersMap} (tid userId : String)
    (hinv : UsersInv m) : UsersInv (mapAfterDelete m tid userId) := by
  unfold mapAfterDelete deleteUserHandler
  split_ifs with h1
  · exact hinv
  · exact usersInv_mapDelete userId hinv

theorem usersInv_applyUserOp {m : UsersMap} (op : UserOp) (hinv : UsersInv m) :
    UsersInv (applyUserOp m op) := by
  cases op with
  | post body freshId now => exact usersInv_mapAfterPost _ _ _ _ hinv
  | put userId body => exact usersInv_mapAfterPut _ _ _ hinv
  | del userId => exact usersInv_mapAfterDelete _ _ hinv

theorem usersInv_foldl (ops : List UserOp) :
    ∀ m : UsersMap, UsersInv m → UsersInv (ops.foldl applyUserOp m) := by
  induction ops with
  | nil => intro m h; exact h
  | cons op ops ih =>
      intro m h
      exact ih (applyUserOp m op) (usersInv_applyUserOp op h)

/-- Claim C4: in every state of the users map reachable from the empty
map through any sequence of POST, PUT and DELETE requests, the keys are
pairwise distinct, every stored user sits under the key equal to its own
`id`, and no two stored users share an email. -/
theorem usersMap_reachable_invariant (ops : List UserOp) : UsersInv (runUserOps ops) :=
  usersInv_foldl ops [] ⟨List.Pairwise.nil, fun p hp => absurd hp (List.not_mem_nil p),
    List.Pairwise.nil⟩

end UsersApi

namespace UsersApi

/-- `r` is a thrown `NotFoundException` with the router's message for
`userId`. -/
def isUserNotFoundError {β : Type} (r : Except (JsError (List String)) β)
    (userId : String) : Prop :=
  r = Except.error (NotFoundException ("Usuario " ++ userId ++ " no encontrado") none)

/-- Claim C2: the GET, PUT and DELETE `/users/:id` handlers throw
`NotFoundException` with message `Usuario <id> no encontrado` exactly
when the id is not a key of the users map, and whenever any of them
throws, the users map is left unchanged. -/
theorem usersRoutes_notFound_spec (m : UsersMap) (tid userId : String) (body : Body) :
    (isUserNotFoundError (getUserHandler m tid userId) userId ↔ mapHas m userId = false)
    ∧ (isUserNotFoundError (putUserHandler m tid userId body) userId
        ↔ mapHas m userId = false)
    ∧ (isUserNotFoundError (deleteUserHandler m tid userId) userId
        ↔ mapHas m userId = false)
    ∧ (∀ e, getUserHandler m tid userId = Except.error e → mapAfterGet m tid userId = m)
    ∧ (∀ e, putUserHandler m tid userId body = Except.error e →
        mapAfterPut m tid userId body = m)
    ∧ (∀ e, deleteUserHandler m tid userId = Except.error e →
        mapAfterDelete m tid userId = m) := by
  refine ⟨?_, ?_, ?_, ?_, ?_, ?_⟩
  · cases hm : mapGet m userId with
    | none =>
        have hhas := (mapGet_eq_none_iff m userId).1 hm
        simp [getUserHandler, hm, isUserNotFoundError, hhas]
    | some u =>
        have hhas := mapHas_true_of_get_some hm
        simp [getUserHandler, hm, isUserNotFoundError, hhas]
  · cases hm : mapGet m userId with
    | none =>
        have hhas := (mapGet_eq_none_iff m userId).1 hm
        simp [putUserHandler, hm, isUserNotFoundError, hhas]
    | some u =>
        have hhas := mapHas_true_of_get_some hm
        simp only [putUserHandler, hm, hhas]
        split_ifs <;>
          simp [isUserNotFoundError, BadRequestException, NotFoundException]
  · cases hh : mapHas m userId with
    | false => simp [deleteUserHandler, hh, isUserNotFoundError]
    | true => simp [deleteUserHandler, hh, isUserNotFoundError]
  · intro e he
    unfold mapAfterGet
    rw [he]
  · intro e he
    unfold mapAfterPut
    rw [he]
  · intro e he
    unfold mapAfterDelete
    rw [he]

/-- Witness for C2: deleting from the empty map throws the not-found
error and leaves the map empty. -/
theorem usersRoutes_notFound_spec_witness :
    (deleteUserHandler [] "t" "u1"
      = Except.error (NotFoundException ("Usuario " ++ "u1" ++ " no encontrado") none))
    ∧ mapAfterDelete [] "t" "u1" = [] :=
  ⟨rfl, (usersRoutes_notFound_spec [] "t" "u1" ⟨none, none⟩).2.2.2.2.2
    (NotFoundException ("Usuario " ++ "u1" ++ " no encontrado") none) rfl⟩

/-- Claim C3: the POST `/users` handler throws `BadRequestException`
exactly when email or name is missing or empty, the email fails the
regex, or a stored user already has that email; on any error the map is
unchanged, and otherwise exactly one user with the freshly generated id
and the given name and email is appended and returned with status 201
and code `USER_CREATED`. -/
theorem postUser_spec (m : UsersMap) (tid : String) (body : Body) (freshId : String)
    (now : Nat) :
    ((∃ msg d, postUserHandler m tid body freshId now
        = Except.error (BadRequestException msg d))
      ↔ (truthy body.email = false ∨ truthy body.name = false
        ∨ emailRegexTest (optStr body.email) = false
        ∨ (mapValues m).any (fun user => user.email == optStr body.email) = true))
    ∧ (∀ e, postUserHandler m tid body freshId now = Except.error e →
        mapAfterPost m tid body freshId now = m)
    ∧ (∀ m' resp, postUserHandler m tid body freshId now = Except.ok (m', resp) →
        m' = mapSet m freshId ⟨freshId, optStr body.name, optStr body.email, now⟩
        ∧ resp.status = 201 ∧ resp.code = "USER_CREATED"
        ∧ resp.data = some ⟨freshId, optStr body.name, optStr body.email, now⟩)
    ∧ (mapHas m freshId = false → ∀ m' resp,
        postUserHandler m tid body freshId now = Except.ok (m', resp) →
        m' = m ++ [(freshId, (⟨freshId, optStr body.name, optStr body.email, now⟩ : User))]) := by
  refine ⟨?_, ?_, ?_, ?_⟩
  · unfold postUserHandler
    split_ifs with h1 h2 h3
    · have hd : truthy body.email = false ∨ truthy body.name = false := by
        simpa using h1
      exact ⟨fun _ => hd.imp id Or.inl, fun _ => ⟨_, _, rfl⟩⟩
    · exact ⟨fun _ => Or.inr (Or.inr (Or.inl (by simpa using h2))), fun _ => ⟨_, _, rfl⟩⟩
    · exact ⟨fun _ => Or.inr (Or.inr (Or.inr h3)), fun _ => ⟨_, _, rfl⟩⟩
    · constructor
      · rintro ⟨msg, d, hcontra⟩
        simp at hcontra
      · intro hdisj
        exfalso
        have hne : ¬(truthy body.email = false ∨ truthy body.name = false) := by
          intro hc
          apply h1
          simpa using hc
        rcases hdisj with h | h | h | h
        · exact hne (Or.inl h)
        · exact hne (Or.inr h)
        · exact h2 (by simpa using h)
        · exact h3 h
  · intro e he
    unfold mapAfterPost
    rw [he]
  · intro m' resp hok
    unfold postUserHandler at hok
    split_ifs at hok
    simp only [Except.ok.injEq, Prod.mk.injEq] at hok
    obtain ⟨hm', hresp⟩ := hok
    refine ⟨hm'.symm, ?_, ?_, ?_⟩ <;>
      simp [← hresp, apiResponseBuilderNew, ApiResponseBuilder.setStatus,
        ApiResponseBuilder.setCode, ApiResponseBuilder.setMessage, ApiResponseBuilder.setData,
        ApiResponseBuilder.build]
  · intro hfresh m' resp hok
    unfold postUserHandler at hok
    split_ifs at hok
    simp only [Except.ok.injEq, Prod.mk.injEq] at hok
    rw [← hok.1, mapSet_of_not_has _ hfresh]

/-- Witness for C3: posting a valid user to the empty map appends exactly
that user under the fresh id. -/
theorem postUser_spec_witness :
    (mapHas ([] : UsersMap) "id1" = false)
    ∧ ([("id1", (⟨"id1", "Ana", "a@b.c", 0⟩ : User))] : UsersMap)
        = ([] : UsersMap) ++ [("id1", (⟨"id1", "Ana", "a@b.c", 0⟩ : User))] :=
  ⟨rfl, (postUser_spec [] "t" ⟨some "a@b.c", some "Ana"⟩ "id1" 0).2.2.2 rfl
    [("id1", ⟨"id1", "Ana", "a@b.c", 0⟩)]
    ⟨"t", 201, "USER_CREATED", "Usuario creado exitosamente",
      some ⟨"id1", "Ana", "a@b.c", 0⟩, none⟩ (by rfl)⟩

end UsersApi

namespace Cohesion

/-! ### Cohesion and coupling examples (`cohesion-acoplamiento` document)

Example 1 is the low-cohesion `GestorProcesoCompra` with its inline
product records; example 2 is the high-cohesion `Orden` taking its
inventory through an interface; the final worked example is a second
`Orden` class (modelled here as `OrdenV2`) whose `InventarioReal`
inventory is an explicit stock-check simulation.  Product prices and
quantities are JavaScript numbers used only through `+` and `*`,
modelled as integers. -/

structure Producto where
  id : String
  nombre : String
  precio : Int
  cantidad : Int
deriving DecidableEq

structure GestorProcesoCompra where
  productos : List Producto
  precioTotal : Int
  emailCliente : String
deriving DecidableEq

def gestorProcesoCompraNew (emailCliente : String) : GestorProcesoCompra :=
  ⟨[], 0, emailCliente⟩

def GestorProcesoCompra.agregarProducto (g : GestorProcesoCompra) (id nombre : String)
    (precio cantidad : Int) : GestorProcesoCompra :=
  { g with productos := g.productos ++ [⟨id, nombre, precio, cantidad⟩] }

/-- `this.precioTotal = this.productos.reduce((total, prod) => total + prod.precio * prod.cantidad, 0)`. -/
def GestorProcesoCompra.calcularPrecioTotal (g : GestorProcesoCompra) : GestorProcesoCompra :=
  { g with precioTotal :=
      g.productos.foldl (fun total prod => total + prod.precio * prod.cantidad) 0 }

def GestorProcesoCompra.obtenerTotal (g : GestorProcesoCompra) : Int :=
  g.precioTotal

structure Orden where
  productos : List Producto
  precioTotal : Int
  emailCliente : String
deriving DecidableEq

def ordenNew (emailCliente : String) : Orden :=
  ⟨[], 0, emailCliente⟩

/-- Same `reduce` as `calcularPrecioTotal`, in the high-cohesion class. -/
def Orden.recalcularTotal (o : Orden) : Orden :=
  { o with precioTotal :=
      o.productos.foldl (fun total prod => total + prod.precio * prod.cantidad) 0 }

/-- `agregarProducto` consults the injected `IInventario` and either
pushes the product and recalculates, or throws the no-stock error. -/
def Orden.agregarProducto (verificarStock : String → Bool) (o : Orden) (producto : Producto) :
    Except String Orden :=
  if verificarStock producto.id then
    Except.ok (Orden.recalcularTotal { o with productos := o.productos ++ [producto] })
  else
    Except.error ("Sin stock para producto: " ++ producto.nombre)

def Orden.getTotal (o : Orden) : Int :=
  o.precioTotal

/-- `InventarioDB.verificarStock`: `return true` (placeholder for real
stock logic). -/
def InventarioDB.verificarStock (productoId : String) : Bool :=
  true

inductive EstadoOrden where
  | CREADA
  | PROCESADA
  | ERROR
deriving DecidableEq

/-- The `Orden` class of the final worked example (the one whose
inventory is `InventarioReal`), with its extra identity and state
fields. -/
structure OrdenV2 where
  id : String
  emailCliente : String
  telefonoCliente : String
  productos : List Producto
  precioTotal : Int
  estado : EstadoOrden
deriving DecidableEq

def OrdenV2.recalcularTotal (o : OrdenV2) : OrdenV2 :=
  { o with precioTotal :=
      o.productos.foldl (fun total prod => total + prod.precio * prod.cantidad) 0 }

/-- `agregarProducto` of the final example: awaits the stock check,
throws `Sin stock para el producto: <nombre>` when it fails, otherwise
pushes and recalculates. -/
def OrdenV2.agregarProducto (verificarStock : String → Bool) (o : OrdenV2)
    (producto : Producto) : Except String OrdenV2 :=
  if verificarStock producto.id then
    Except.ok (OrdenV2.recalcularTotal { o with productos := o.productos ++ [producto] })
  else
    Except.error ("Sin stock para el producto: " ++ producto.nombre)

/-- `InventarioReal.verificarStock`: `return true; // Simulado`. -/
def InventarioReal.verificarStock (productoId : String) : Bool :=
  true

def gestorAgregarAll (g : GestorProcesoCompra) (ps : List Producto) : GestorProcesoCompra :=
  ps.foldl (fun g p => g.agregarProducto p.id p.nombre p.precio p.cantidad) g

def ordenAgregarAll (verificarStock : String → Bool) (o : Orden) (ps : List Producto) :
    Except String Orden :=
  ps.foldlM (Orden.agregarProducto verificarStock) o

end Cohesion

namespace Cohesion

theorem gestorAgregarAll_productos (ps : List Producto) :
    ∀ g : GestorProcesoCompra, (gestorAgregarAll g ps).productos = g.productos ++ ps := by
  induction ps with
  | nil => intro g; simp [gestorAgregarAll]
  | cons p ps ih =>
      intro g
      have := ih (g.agregarProducto p.id p.nombre p.precio p.cantidad)
      simpa [gestorAgregarAll, GestorProcesoCompra.agregarProducto, List.append_assoc]
        using this

theorem ordenAgregarAll_ok (ps : List Producto) :
    ∀ o : Orden,
      o.precioTotal
          = o.productos.foldl (fun total prod => total + prod.precio * prod.cantidad) 0 →
      ordenAgregarAll InventarioDB.verificarStock o ps
        = Except.ok ⟨o.productos ++ ps,
            (o.productos ++ ps).foldl (fun total prod => total + prod.precio * prod.cantidad) 0,
            o.emailCliente⟩ := by
  induction ps with
  | nil =>
      intro o ho
      cases o with
      | mk productos precioTotal emailCliente =>
          simp only [ordenAgregarAll, List.foldlM, List.append_nil]
          simp_all
          rfl
  | cons p ps ih =>
      intro o ho
      have hstep : Orden.agregarProducto InventarioDB.verificarStock o p
          = Except.ok ⟨o.productos ++ [p],
              (o.productos ++ [p]).foldl
                (fun total prod => total + prod.precio * prod.cantidad) 0,
              o.emailCliente⟩ := by
        simp [Orden.agregarProducto, InventarioDB.verificarStock, Orden.recalcularTotal]
      have hnext := ih ⟨o.productos ++ [p],
          (o.productos ++ [p]).foldl (fun total prod => total + prod.precio * prod.cantidad) 0,
          o.emailCliente⟩ rfl
      simp only [ordenAgregarAll, List.foldlM] at hnext ⊢
      rw [hstep]
      simpa [List.append_assoc] using hnext

/-- Claim C9: the bad-design `calcularPrecioTotal` and the good-design
`recalcularTotal` compute the same total on the same product list,
namely the left fold of `total + precio * cantidad` starting at 0, so
after adding the same product sequence `obtenerTotal` and `getTotal`
agree (the good-design order is built with the always-in-stock
`InventarioDB`, so every add succeeds). -/
theorem totales_equivalentes (email : String) (ps : List Producto)
    (total1 total2 : Int) (email1 email2 : String) :
    (GestorProcesoCompra.calcularPrecioTotal ⟨ps, total1, email1⟩).precioTotal
      = (Orden.recalcularTotal ⟨ps, total2, email2⟩).precioTotal
    ∧ (gestorAgregarAll (gestorProcesoCompraNew email) ps).calcularPrecioTotal.obtenerTotal
      = ps.foldl (fun total prod => total + prod.precio * prod.cantidad) 0
    ∧ ∃ o, ordenAgregarAll InventarioDB.verificarStock (ordenNew email) ps = Except.ok o
        ∧ Orden.getTotal o
            = ps.foldl (fun total prod => total + prod.precio * prod.cantidad) 0 := by
  refine ⟨rfl, ?_, ?_⟩
  · have hp := gestorAgregarAll_productos ps (gestorProcesoCompraNew email)
    simp only [gestorProcesoCompraNew, List.nil_append] at hp
    simp [GestorProcesoCompra.calcularPrecioTotal, GestorProcesoCompra.obtenerTotal,
      gestorProcesoCompraNew, hp]
  · refine ⟨⟨ps, ps.foldl (fun total prod => total + prod.precio * prod.cantidad) 0, email⟩,
      ?_, ?_⟩
    · have := ordenAgregarAll_ok ps (ordenNew email) rfl
      simpa [ordenNew] using this
    · rfl

/-- Claim C10: `InventarioReal.verificarStock` returns `true` for every
product id (the check is a constant simulation), so `agregarProducto` of
the order built over `InventarioReal` always succeeds and its
`Sin stock para el producto` branch is unreachable. -/
theorem inventarioReal_sin_stock_unreachable :
    (∀ productoId : String, InventarioReal.verificarStock productoId = true)
    ∧ (∀ (o : OrdenV2) (producto : Producto), ∃ o',
        OrdenV2.agregarProducto InventarioReal.verificarStock o producto = Except.ok o')
    ∧ (∀ (o : OrdenV2) (producto : Producto) (msg : String),
        OrdenV2.agregarProducto InventarioReal.verificarStock o producto
          ≠ Except.error msg) := by
  refine ⟨fun _ => rfl, fun o producto => ?_, fun o producto msg => ?_⟩
  · exact ⟨_, rfl⟩
  · simp [OrdenV2.agregarProducto, InventarioReal.verificarStock]

/-- Witness for C10 at the document's own example order and product. -/
theorem inventarioReal_sin_stock_unreachable_witness :
    OrdenV2.agregarProducto InventarioReal.verificarStock
        ⟨"ORD-001", "cliente@email.com", "+1234567890", [], 0, EstadoOrden.CREADA⟩
        ⟨"1", "Laptop", 1200, 1⟩
      ≠ Except.error ("Sin stock para el producto: " ++ "Laptop") :=
  inventarioReal_sin_stock_unreachable.2.2
    ⟨"ORD-001", "cliente@email.com", "+1234567890", [], 0, EstadoOrden.CREADA⟩
    ⟨"1", "Laptop", 1200, 1⟩ ("Sin stock para el producto: " ++ "Laptop")

end Cohesion
